import Mathlib

/-!
Verification of the `advanced-vector` container (`src/advanced-vector/vector.h`).

The C++ code is shallowly embedded as follows.  A `RawMemory<T>` buffer of
capacity `c` is a list of `c` slots, each slot being either a live object
(`some v`) or uninitialized storage (`none`).  A `Vector<T>` is such a slot
list together with the live-element count `size_`; the buffer length is the
capacity.  Placement-`new` into a slot writes `some v`; running a destructor
on a slot writes `none`; `std::move` of an element is modelled as copying its
value (the moved-from object stays alive, its value unspecified but herein
retained, which is sound because the code either overwrites or destroys it).
Operations that can throw are embedded twice: a pure function for the
successful execution, and an instrumented variant returning `Except` whose
`error` carries the externally observable vector state at the moment the
exception leaves the function.
-/

namespace AdvVec

/-- A `Vector<T>`: `data` is the `RawMemory` slot array (length = capacity,
`some` = live object, `none` = raw storage), `size` is `size_`. -/
structure Vector (α : Type) where
  data : List (Option α)
  size : Nat
deriving DecidableEq

variable {α : Type}

/-- Reading the object address `buffer_ + i`: the slot contents at offset `i`
(out-of-range reads yield `none`, mirroring that they are not live objects). -/
def slot : List (Option α) → Nat → Option α
  | [], _ => none
  | a :: _, 0 => a
  | _ :: d, j + 1 => slot d j

/-- `data_.Capacity()`: the number of slots owned by the raw buffer. -/
def Capacity (v : Vector α) : Nat := v.data.length

/-- The observable element sequence `[begin(), end())`: the objects read at
offsets `0, 1, …, size_-1`. -/
def elems (v : Vector α) : List α :=
  (List.range v.size).filterMap (slot v.data)

/-- `Vector()`: default construction, empty buffer, size 0. -/
def EmptyVec (α : Type) : Vector α := ⟨[], 0⟩

/-- `std::uninitialized_copy_n(src + so, n, dst + t)` and
`std::uninitialized_move_n` (values preserved either way): writes the `n`
source slots starting at offset `so` into destination offsets `t, t+1, …`. -/
def transferN (src : List (Option α)) : Nat → Nat → Nat → List (Option α) → List (Option α)
  | 0, _, _, d => d
  | n + 1, so, t, d => transferN src n (so + 1) (t + 1) (d.set t (slot src so))

/-- `std::uninitialized_value_construct_n` / `std::destroy_n` at offset `t`:
fills `n` consecutive slots with `x` (`some default` for value-construction,
`none` for destruction). -/
def fillN (x : Option α) : Nat → Nat → List (Option α) → List (Option α)
  | 0, _, d => d
  | n + 1, t, d => fillN x n (t + 1) (d.set t x)

/-- `std::move_backward(first, last, d_last)` on the buffer: repeatedly
move-assigns slot `last-1` to slot `d_last-1`, working backwards; the fuel is
the range length `last - first`. -/
def moveBackwardAux : Nat → Nat → Nat → List (Option α) → List (Option α)
  | 0, _, _, d => d
  | n + 1, last, dlast, d =>
      moveBackwardAux n (last - 1) (dlast - 1) (d.set (dlast - 1) (slot d (last - 1)))

/-- `std::move_backward(begin+first, begin+last, begin+dlast)`. -/
def moveBackward (d : List (Option α)) (first last dlast : Nat) : List (Option α) :=
  moveBackwardAux (last - first) last dlast d

/-- `std::move(first, last, d_first)` on the buffer: move-assigns slots
front-to-back; fuel is `last - first`. -/
def moveForwardAux : Nat → Nat → Nat → List (Option α) → List (Option α)
  | 0, _, _, d => d
  | n + 1, first, t, d => moveForwardAux n (first + 1) (t + 1) (d.set t (slot d first))

/-- `std::move(begin+first, begin+last, begin+t)`. -/
def moveForward (d : List (Option α)) (first last t : Nat) : List (Option α) :=
  moveForwardAux (last - first) first t d

/-- `explicit Vector(size_t size)`: buffer of exactly `size` slots,
value-constructing `size` elements (`dflt` is the value-initialized element). -/
def MkSized (dflt : α) (n : Nat) : Vector α :=
  ⟨List.replicate n (some dflt), n⟩

/-- `Vector(const Vector& other)`: buffer of exactly `other.size_` slots,
`uninitialized_copy_n(other.data_.GetAddress(), size_, data_.GetAddress())`. -/
def CopyCtor (v : Vector α) : Vector α :=
  ⟨transferN v.data v.size 0 0 (List.replicate v.size none), v.size⟩

/-- `Vector::Swap`: exchanges `size_` and the raw buffers of two vectors. -/
def Swap (a b : Vector α) : Vector α × Vector α :=
  (⟨b.data, b.size⟩, ⟨a.data, a.size⟩)

/-- `Vector(Vector&& other) noexcept { Swap(other); }`: the members are first
default-initialized (null buffer, size 0) and then swapped with the source;
returns (the new vector, the moved-from source). -/
def MoveCtor (other : Vector α) : Vector α × Vector α :=
  Swap (EmptyVec α) other

/-- `operator=(const Vector&)`: `selfSame` is the address check `this == &rhs`.
If the source is larger than the destination capacity, copy-and-swap via the
copy constructor; otherwise assign over the common prefix and either destroy
the surplus tail or copy-construct the missing suffix, then update `size_`. -/
def AssignCopy (selfSame : Bool) (dst rhs : Vector α) : Vector α :=
  if selfSame then dst
  else if Capacity dst < rhs.size then
    CopyCtor rhs
  else if rhs.size < dst.size then
    ⟨fillN none (dst.size - rhs.size) rhs.size (transferN rhs.data rhs.size 0 0 dst.data),
      rhs.size⟩
  else
    ⟨transferN rhs.data rhs.size 0 0 dst.data, rhs.size⟩

/-- `operator=(Vector&&) noexcept`: early-return on self-assignment, otherwise
`Swap(rhs)`; returns (the assigned-to vector, the right-hand side). -/
def AssignMove (selfSame : Bool) (dst rhs : Vector α) : Vector α × Vector α :=
  if selfSame then (dst, rhs) else Swap dst rhs

/-- `PopBack()`: no-op when `size_ < 1`; otherwise
`std::destroy_at(data_.GetAddress() + size_--)` — the post-decrement hands the
old `size_` to the pointer arithmetic, so the destructor runs on the slot at
offset `size_` (the old value) and then `size_` is decremented. -/
def PopBack (v : Vector α) : Vector α :=
  if v.size < 1 then v
  else ⟨v.data.set v.size none, v.size - 1⟩

/-- The offset actually passed to `std::destroy_at` by `PopBack` (`none` when
`PopBack` is a no-op): `data_.GetAddress() + size_--` evaluates to the address
of offset `size_` before the decrement. -/
def PopBackDestroyOffset (v : Vector α) : Option Nat :=
  if v.size < 1 then none else some v.size

/-- `Emplace(pos, args...)` for the successful (non-throwing) execution, with
`i = pos - begin()`.  When `data_.Capacity() > size_`: either append into slot
`size_`, or (for `pos != end()`) build the value locally, move-construct the
last element into slot `size_`, `move_backward` the range `[i, size_-1)` one
slot right and move-assign the new value into slot `i`.  Otherwise allocate
`size_ == 0 ? 1 : size_ * 2` fresh slots, construct the new element at offset
`i` there, transfer the old prefix `[0, i)` and suffix `[i, size_)` around it,
destroy the originals and swap buffers. -/
def Emplace (v : Vector α) (i : Nat) (x : α) : Vector α :=
  if v.size < Capacity v then
    if i ≠ v.size then
      ⟨(moveBackward (v.data.set v.size (slot v.data (v.size - 1))) i (v.size - 1) v.size).set
          i (some x),
        v.size + 1⟩
    else
      ⟨v.data.set v.size (some x), v.size + 1⟩
  else
    ⟨transferN v.data (v.size - i) i (i + 1)
        (transferN v.data i 0 0
          (((List.replicate (if v.size = 0 then 1 else v.size * 2) none).set i (some x)))),
      v.size + 1⟩

/-- `Insert(pos, value)` (both overloads): forwards to `Emplace`. -/
def Insert (v : Vector α) (i : Nat) (x : α) : Vector α := Emplace v i x

/-- `Erase(pos)` with `i = pos - begin()`:
`std::move(begin() + i + 1, end(), begin() + i)` then `PopBack()`. -/
def Erase (v : Vector α) (i : Nat) : Vector α :=
  PopBack ⟨moveForward v.data (i + 1) v.size i, v.size⟩

/-- `EmplaceBack(args...)` for the successful execution: construct into slot
`size_` when there is spare capacity, otherwise allocate
`size_ == 0 ? 1 : size_ * 2` slots, construct the new element at offset
`size_` of the new buffer, transfer the old elements, destroy them and swap. -/
def EmplaceBack (v : Vector α) (x : α) : Vector α :=
  if v.size ≠ Capacity v then
    ⟨v.data.set v.size (some x), v.size + 1⟩
  else
    ⟨transferN v.data v.size 0 0
        ((List.replicate (if v.size = 0 then 1 else v.size * 2) none).set v.size (some x)),
      v.size + 1⟩

/-- `PushBack(value)`: forwards to `EmplaceBack`. -/
def PushBack (v : Vector α) (x : α) : Vector α := EmplaceBack v x

/-- `Reserve(new_capacity)`: no-op when `new_capacity <= data_.Capacity()`;
otherwise allocate exactly `new_capacity` slots, transfer the `size_` live
elements, destroy the originals and swap buffers. -/
def Reserve (v : Vector α) (newCap : Nat) : Vector α :=
  if newCap ≤ Capacity v then v
  else ⟨transferN v.data v.size 0 0 (List.replicate newCap none), v.size⟩

/-- `Resize(new_size)`: no-op when equal; destroy the tail when shrinking;
`Reserve` then value-construct (`dflt`) the new tail when growing; finally
`size_` becomes `new_size`. -/
def Resize (v : Vector α) (dflt : α) (newSize : Nat) : Vector α :=
  if newSize = v.size then v
  else if newSize < v.size then
    ⟨fillN none (v.size - newSize) newSize v.data, newSize⟩
  else
    ⟨fillN (some dflt) (newSize - v.size) v.size (Reserve v newSize).data, newSize⟩

/-- The value read at index `j` of a plain value list (used to state what a
successful sequence of element copies produces). -/
def getv : List α → Nat → Option α
  | [], _ => none
  | a :: _, 0 => some a
  | _ :: l, j + 1 => getv l j

/-! Exception-instrumented embeddings.  An element type whose copy
constructor can throw is modelled by a predicate `bad : α → Bool`: copying a
value `a` with `bad a = true` raises.  The `Except` result's `error` carries
the vector state observable by the caller when the exception propagates out. -/

/-- `std::uninitialized_copy_n` over the values `l`, constructing into
destination offsets `t, t+1, …`; `none` when some copy throws — the algorithm
then destroys the elements it already constructed, so the destination buffer
is exactly as it was on entry. -/
def uninitCopyN (bad : α → Bool) : List α → Nat → List (Option α) → Option (List (Option α))
  | [], _, d => some d
  | a :: rest, t, d =>
    if bad a then none else uninitCopyN bad rest (t + 1) (d.set t (some a))

/-- `std::copy_n` over the values `l`, assigning into offsets `t, t+1, …`;
on a throw the already-assigned prefix stays assigned (`error` carries the
buffer at that point). -/
def assignSeq (bad : α → Bool) :
    List α → Nat → List (Option α) → Except (List (Option α)) (List (Option α))
  | [], _, d => .ok d
  | a :: rest, t, d =>
    if bad a then .error d else assignSeq bad rest (t + 1) (d.set t (some a))

/-- `EmplaceBack(args...)` with exception instrumentation.  `newElem` is the
result of constructing the element from `args...`: `none` when that
constructor throws.  The growth path allocates fresh `RawMemory`, constructs
the new element at offset `size_` of it first, and only then transfers the old
elements — the copy-transfer instantiation guards the transfer with
`try/catch`, destroying the fresh element and rethrowing when a copy throws
(the move-transfer instantiation is the case `bad = fun a => false`).  Every
`error` carries the caller-visible vector, untouched on all throwing paths. -/
def EmplaceBackThrow (bad : α → Bool) (newElem : Option α) (v : Vector α) :
    Except (Vector α) (Vector α) :=
  if v.size ≠ Capacity v then
    match newElem with
    | none => .error v
    | some x => .ok ⟨v.data.set v.size (some x), v.size + 1⟩
  else
    match newElem with
    | none => .error v
    | some x =>
      match uninitCopyN bad (elems v) 0
          ((List.replicate (if v.size = 0 then 1 else v.size * 2) none).set v.size (some x)) with
      | none => .error v
      | some nd => .ok ⟨nd, v.size + 1⟩

/-- `operator=(const Vector&)` with exception instrumentation (cf.
`AssignCopy`).  In the copy-and-swap branch the copy constructor of the
temporary runs `uninitialized_copy_n` over the source's live values; a throw
there unwinds the temporary and leaves the destination untouched.  The
in-place branches assign over the common prefix and copy-construct or destroy
the rest, with only the basic guarantee. -/
def AssignCopyThrow (bad : α → Bool) (selfSame : Bool) (dst rhs : Vector α) :
    Except (Vector α) (Vector α) :=
  if selfSame then .ok dst
  else if Capacity dst < rhs.size then
    match uninitCopyN bad (elems rhs) 0 (List.replicate rhs.size none) with
    | none => .error dst
    | some nd => .ok ⟨nd, rhs.size⟩
  else if rhs.size < dst.size then
    match assignSeq bad (elems rhs) 0 dst.data with
    | .error d => .error ⟨d, dst.size⟩
    | .ok d => .ok ⟨fillN none (dst.size - rhs.size) rhs.size d, rhs.size⟩
  else
    match assignSeq bad ((elems rhs).take dst.size) 0 dst.data with
    | .error d => .error ⟨d, dst.size⟩
    | .ok d =>
      match uninitCopyN bad ((elems rhs).drop dst.size) dst.size d with
      | none => .error ⟨d, dst.size⟩
      | some d2 => .ok ⟨d2, rhs.size⟩

/-- Observable outcome of the single `catch` clause in `Emplace`. -/
structure CatchOutcome (α : Type) where
  /-- buffer slots at the moment the exception leaves `Emplace` -/
  data : List (Option α)
  /-- offset handed to `operator delete`, when the handler deallocates -/
  rawFreeOffset : Option Nat
  /-- whether the handler re-raises the caught exception -/
  rethrown : Bool
deriving DecidableEq

/-- The same-capacity positional-insert path of `Emplace`
(`data_.Capacity() > size_`, `pos != end()`) in the execution where the local
temporary and the placement-new of the last element into slot `size_` have
both succeeded and the subsequent `std::move_backward` throws at its first
move-assignment.  The `catch` clause then executes `operator delete (end())`
— a raw deallocation request for the interior address `buffer_ + size_`,
which runs no destructor and leaves every slot as it was — and rethrows. -/
def EmplaceShiftThrowOutcome (v : Vector α) : CatchOutcome α :=
  { data := v.data.set v.size (slot v.data (v.size - 1))
    rawFreeOffset := some v.size
    rethrown := true }

/-! Slot-level helper lemmas. -/

lemma slot_set_self : ∀ (d : List (Option α)) (i : Nat) (x : Option α),
    i < d.length → slot (d.set i x) i = x
  | [], i, _, h => absurd h (by simp)
  | _ :: _, 0, _, _ => rfl
  | _ :: d, i + 1, x, h => slot_set_self d i x (by simpa using h)

lemma slot_set_ne : ∀ (d : List (Option α)) (i : Nat) (x : Option α) (j : Nat),
    j ≠ i → slot (d.set i x) j = slot d j
  | [], _, _, _, _ => rfl
  | _ :: _, 0, _, 0, h => absurd rfl h
  | _ :: _, 0, _, _ + 1, _ => rfl
  | _ :: _, _ + 1, _, 0, _ => rfl
  | _ :: d, i + 1, x, j + 1, h => slot_set_ne d i x j (fun e => h (by omega))

lemma slot_replicate : ∀ (n j : Nat), slot (List.replicate n (none : Option α)) j = none
  | 0, _ => rfl
  | _ + 1, 0 => rfl
  | n + 1, j + 1 => slot_replicate n j

lemma length_transferN (src : List (Option α)) :
    ∀ (n so t : Nat) (d : List (Option α)), (transferN src n so t d).length = d.length
  | 0, _, _, _ => rfl
  | n + 1, so, t, d => by
    rw [transferN, length_transferN src n, List.length_set]

lemma length_fillN (x : Option α) :
    ∀ (n t : Nat) (d : List (Option α)), (fillN x n t d).length = d.length
  | 0, _, _ => rfl
  | n + 1, t, d => by rw [fillN, length_fillN x n, List.length_set]

lemma length_moveBackwardAux :
    ∀ (n last dlast : Nat) (d : List (Option α)),
      (moveBackwardAux n last dlast d).length = d.length
  | 0, _, _, _ => rfl
  | n + 1, last, dlast, d => by
    rw [moveBackwardAux, length_moveBackwardAux n, List.length_set]

lemma length_moveForwardAux :
    ∀ (n first t : Nat) (d : List (Option α)),
      (moveForwardAux n first t d).length = d.length
  | 0, _, _, _ => rfl
  | n + 1, first, t, d => by
    rw [moveForwardAux, length_moveForwardAux n, List.length_set]

lemma length_moveBackward (d : List (Option α)) (first last dlast : Nat) :
    (moveBackward d first last dlast).length = d.length :=
  length_moveBackwardAux _ _ _ _

lemma length_moveForward (d : List (Option α)) (first last t : Nat) :
    (moveForward d first last t).length = d.length :=
  length_moveForwardAux _ _ _ _

lemma slot_transferN (src : List (Option α)) :
    ∀ (n so t : Nat) (d : List (Option α)) (j : Nat), t + n ≤ d.length →
      slot (transferN src n so t d) j =
        if t ≤ j ∧ j < t + n then slot src (so + (j - t)) else slot d j := by
  intro n
  induction n with
  | zero =>
    intro so t d j _
    rw [transferN, if_neg (by omega)]
  | succ n ih =>
    intro so t d j hlen
    rw [transferN, ih (so + 1) (t + 1) _ j (by rw [List.length_set]; omega)]
    by_cases hjt : j = t
    · subst hjt
      rw [if_neg (by omega), slot_set_self _ _ _ (by omega), if_pos (by omega)]
      congr 1
      omega
    · by_cases hr : t + 1 ≤ j ∧ j < t + 1 + n
      · rw [if_pos hr, if_pos (by omega)]
        congr 1
        omega
      · rw [if_neg hr, slot_set_ne _ _ _ _ hjt, if_neg (by omega)]

lemma slot_moveBackwardAux :
    ∀ (n last dlast : Nat) (d : List (Option α)) (j : Nat),
      n ≤ last → last ≤ dlast → dlast ≤ d.length →
      slot (moveBackwardAux n last dlast d) j =
        if dlast - n ≤ j ∧ j < dlast then slot d (j - (dlast - last)) else slot d j := by
  intro n
  induction n with
  | zero =>
    intro last dlast d j _ _ _
    rw [moveBackwardAux, if_neg (by omega)]
  | succ n ih =>
    intro last dlast d j hn hld hdl
    rw [moveBackwardAux,
      ih (last - 1) (dlast - 1) _ j (by omega) (by omega) (by rw [List.length_set]; omega)]
    by_cases h1 : j = dlast - 1
    · subst h1
      rw [if_neg (by omega), slot_set_self _ _ _ (by omega), if_pos (by omega)]
      congr 1
      omega
    · by_cases h3 : (dlast - 1) - n ≤ j ∧ j < dlast - 1
      · rw [if_pos h3, slot_set_ne _ _ _ _ (by omega), if_pos (by omega)]
        congr 1
        omega
      · rw [if_neg h3, slot_set_ne _ _ _ _ h1, if_neg (by omega)]

lemma slot_moveForwardAux :
    ∀ (n first t : Nat) (d : List (Option α)) (j : Nat),
      t < first → t + n ≤ d.length →
      slot (moveForwardAux n first t d) j =
        if t ≤ j ∧ j < t + n then slot d (j + (first - t)) else slot d j := by
  intro n
  induction n with
  | zero =>
    intro first t d j _ _
    rw [moveForwardAux, if_neg (by omega)]
  | succ n ih =>
    intro first t d j htf hlen
    rw [moveForwardAux, ih (first + 1) (t + 1) _ j (by omega) (by rw [List.length_set]; omega)]
    by_cases hjt : j = t
    · subst hjt
      rw [if_neg (by omega), slot_set_self _ _ _ (by omega), if_pos (by omega)]
      congr 1
      omega
    · by_cases hr : t + 1 ≤ j ∧ j < t + 1 + n
      · rw [if_pos hr, slot_set_ne _ _ _ _ (by omega), if_pos (by omega)]
        congr 1
        omega
      · rw [if_neg hr, slot_set_ne _ _ _ _ hjt, if_neg (by omega)]

lemma filterMap_ext_mem {β γ : Type} {f g : β → Option γ} :
    ∀ (l : List β), (∀ a ∈ l, f a = g a) → l.filterMap f = l.filterMap g
  | [], _ => rfl
  | a :: l, h => by
    rw [List.filterMap_cons, List.filterMap_cons, h a (by simp),
      filterMap_ext_mem l (fun b hb => h b (by simp [hb]))]

lemma filterMap_length_of_isSome {β γ : Type} {f : β → Option γ} :
    ∀ (l : List β), (∀ a ∈ l, (f a).isSome = true) → (l.filterMap f).length = l.length
  | [], _ => rfl
  | a :: l, h => by
    rw [List.filterMap_cons]
    rcases ho : f a with _ | b
    · exact absurd (ho ▸ h a (by simp)) (by simp)
    · simpa using filterMap_length_of_isSome l (fun b hb => h b (by simp [hb]))

lemma filterMap_range_getv : ∀ (l : List α), (List.range l.length).filterMap (getv l) = l
  | [] => rfl
  | a :: l => by
    rw [List.length_cons, List.range_succ_eq_map, List.filterMap_cons, List.filterMap_map]
    have h1 : getv (a :: l) 0 = some a := rfl
    have h2 : getv (a :: l) ∘ Nat.succ = getv l := rfl
    rw [h1, h2, filterMap_range_getv l]

/-! Characterization of `Emplace` and `Erase` at the slot level. -/

lemma Emplace_size (v : Vector α) (i : Nat) (x : α) : (Emplace v i x).size = v.size + 1 := by
  unfold Emplace
  split
  · split <;> rfl
  · rfl

lemma Emplace_capacity_ge (v : Vector α) (i : Nat) (x : α) :
    v.size + 1 ≤ Capacity (Emplace v i x) := by
  unfold Emplace Capacity
  split
  · next hc =>
    split
    · simp only [List.length_set, length_moveBackward]
      omega
    · simp only [List.length_set]
      omega
  · next hc =>
    simp only [length_transferN, List.length_set, List.length_replicate]
    split <;> omega

lemma Emplace_capacity_mono (v : Vector α) (i : Nat) (x : α) :
    Capacity v ≤ Capacity (Emplace v i x) := by
  unfold Emplace Capacity
  split
  · split
    · simp [List.length_set, length_moveBackward]
    · simp [List.length_set]
  · next hc =>
    simp only [length_transferN, List.length_set, List.length_replicate]
    split <;> omega

lemma slot_Emplace (v : Vector α) (i : Nat) (x : α) (hi : i ≤ v.size) (j : Nat)
    (hj : j ≤ v.size) :
    slot (Emplace v i x).data j =
      if j < i then slot v.data j else if j = i then some x else slot v.data (j - 1) := by
  unfold Emplace
  by_cases hc : v.size < Capacity v
  · rw [if_pos hc]
    unfold Capacity at hc
    by_cases hne : i ≠ v.size
    · have hi' : i < v.size := by omega
      rw [if_pos hne]
      show slot ((moveBackward (v.data.set v.size (slot v.data (v.size - 1)))
        i (v.size - 1) v.size).set i (some x)) j = _
      by_cases hji : j = i
      · subst hji
        rw [slot_set_self _ _ _
          (by rw [length_moveBackward, List.length_set]; omega)]
        rw [if_neg (by omega), if_pos rfl]
      · rw [slot_set_ne _ _ _ _ hji]
        unfold moveBackward
        rw [slot_moveBackwardAux _ _ _ _ _ (by omega) (by omega)
          (by rw [List.length_set]; omega)]
        have e1 : v.size - (v.size - 1 - i) = i + 1 := by omega
        have e2 : v.size - (v.size - 1) = 1 := by omega
        rw [e1, e2]
        by_cases hlt : j < i
        · rw [if_neg (by omega), slot_set_ne _ _ _ _ (by omega), if_pos hlt]
        · by_cases hjs : j = v.size
          · subst hjs
            rw [if_neg (by omega), slot_set_self _ _ _ (by omega),
              if_neg (by omega), if_neg (by omega)]
          · rw [if_pos (by omega), slot_set_ne _ _ _ _ (by omega),
              if_neg (by omega), if_neg (by omega)]
    · rw [if_neg hne]
      have hie : i = v.size := by omega
      show slot (v.data.set v.size (some x)) j = _
      by_cases hjs : j = v.size
      · subst hjs
        rw [slot_set_self _ _ _ (by omega), if_neg (by omega), if_pos (by omega)]
      · rw [slot_set_ne _ _ _ _ hjs, if_pos (by omega)]
  · rw [if_neg hc]
    unfold Capacity at hc
    have hnc : v.size + 1 ≤ (if v.size = 0 then 1 else v.size * 2) := by split <;> omega
    show slot (transferN v.data (v.size - i) i (i + 1)
      (transferN v.data i 0 0
        ((List.replicate (if v.size = 0 then 1 else v.size * 2) none).set i (some x)))) j = _
    rw [slot_transferN _ _ _ _ _ _
      (by rw [length_transferN, List.length_set, List.length_replicate]; omega)]
    by_cases h1 : i + 1 ≤ j ∧ j < i + 1 + (v.size - i)
    · rw [if_pos h1, if_neg (by omega), if_neg (by omega)]
      congr 1
      omega
    · rw [if_neg h1]
      rw [slot_transferN _ _ _ _ _ _
        (by rw [List.length_set, List.length_replicate]; omega)]
      by_cases h2 : j < i
      · rw [if_pos (by omega), if_pos h2]
        congr 1
        omega
      · have hji : j = i := by omega
        subst hji
        rw [if_neg (by omega), slot_set_self _ _ _ (by rw [List.length_replicate]; omega),
          if_neg (by omega), if_pos rfl]

lemma Erase_size (w : Vector α) (k : Nat) (hk : k < w.size) :
    (Erase w k).size = w.size - 1 := by
  unfold Erase PopBack
  rw [if_neg (by simp; omega)]

lemma Erase_capacity (w : Vector α) (k : Nat) : Capacity (Erase w k) = Capacity w := by
  unfold Erase PopBack Capacity
  split
  · simp [moveForward, length_moveForwardAux]
  · simp [moveForward, List.length_set, length_moveForwardAux]

lemma slot_Erase (w : Vector α) (k : Nat) (hk : k < w.size) (hcap : w.size ≤ Capacity w)
    (j : Nat) (hj : j < w.size - 1) :
    slot (Erase w k).data j = if j < k then slot w.data j else slot w.data (j + 1) := by
  unfold Erase PopBack
  rw [if_neg (by simp; omega)]
  show slot ((moveForward w.data (k + 1) w.size k).set w.size none) j = _
  rw [slot_set_ne _ _ _ _ (by omega)]
  unfold moveForward
  rw [slot_moveForwardAux _ _ _ _ _ (by omega) (by unfold Capacity at hcap; omega)]
  have e1 : k + (w.size - (k + 1)) = w.size - 1 := by omega
  have e2 : k + 1 - k = 1 := by omega
  rw [e1, e2]
  by_cases h1 : j < k
  · rw [if_neg (by omega), if_pos h1]
  · rw [if_pos (by omega), if_neg h1]

/-! The `elems` view. -/

lemma elems_congr (u v : Vector α) (hsz : u.size = v.size)
    (h : ∀ j, j < v.size → slot u.data j = slot v.data j) : elems u = elems v := by
  unfold elems
  rw [hsz]
  exact filterMap_ext_mem _ (fun j hj => h j (List.mem_range.mp hj))

lemma elems_length (v : Vector α) (hlive : ∀ j, j < v.size → (slot v.data j).isSome = true) :
    (elems v).length = v.size := by
  unfold elems
  rw [filterMap_length_of_isSome _ (fun j hj => hlive j (List.mem_range.mp hj)),
    List.length_range]

lemma uninitCopyN_length (bad : α → Bool) :
    ∀ (l : List α) (t : Nat) (d r : List (Option α)),
      uninitCopyN bad l t d = some r → r.length = d.length
  | [], _, _, _, h => by
    rw [uninitCopyN] at h
    cases h
    rfl
  | a :: rest, t, d, r, h => by
    rw [uninitCopyN] at h
    split at h
    · cases h
    · rw [uninitCopyN_length bad rest (t + 1) _ r h, List.length_set]

lemma uninitCopyN_isNone_iff (bad : α → Bool) :
    ∀ (l : List α) (t : Nat) (d : List (Option α)),
      uninitCopyN bad l t d = none ↔ ∃ a ∈ l, bad a = true
  | [], t, d => by simp [uninitCopyN]
  | a :: rest, t, d => by
    rw [uninitCopyN]
    split
    · next hb => simp [hb]
    · next hb =>
      rw [uninitCopyN_isNone_iff bad rest (t + 1) _]
      simp only [List.mem_cons]
      constructor
      · rintro ⟨b, hb1, hb2⟩
        exact ⟨b, Or.inr hb1, hb2⟩
      · rintro ⟨b, hb1 | hb1, hb2⟩
        · exact absurd hb2 (by subst hb1; simpa using hb)
        · exact ⟨b, hb1, hb2⟩

lemma uninitCopyN_slot (bad : α → Bool) :
    ∀ (l : List α) (t : Nat) (d r : List (Option α)),
      uninitCopyN bad l t d = some r → t + l.length ≤ d.length →
      ∀ j, slot r j = if t ≤ j ∧ j < t + l.length then getv l (j - t) else slot d j
  | [], t, d, r, h, _, j => by
    rw [uninitCopyN] at h
    cases h
    rw [if_neg (by simp only [List.length_nil]; omega)]
  | a :: rest, t, d, r, h, hlen, j => by
    rw [uninitCopyN] at h
    split at h
    · cases h
    · rw [List.length_cons] at hlen
      rw [uninitCopyN_slot bad rest (t + 1) _ r h (by rw [List.length_set]; omega) j]
      by_cases hjt : j = t
      · subst hjt
        rw [if_neg (by omega), slot_set_self _ _ _ (by omega),
          if_pos (by simp only [List.length_cons]; omega)]
        show some a = getv (a :: rest) (j - j)
        rw [Nat.sub_self]
        rfl
      · by_cases hr : t + 1 ≤ j ∧ j < t + 1 + rest.length
        · rw [if_pos hr, if_pos (by simp only [List.length_cons]; omega)]
          have e : j - t = (j - (t + 1)) + 1 := by omega
          rw [e]
          rfl
        · rw [if_neg hr, slot_set_ne _ _ _ _ hjt,
            if_neg (by simp only [List.length_cons]; omega)]

lemma getv_filterMap_range (n : Nat) (f : Nat → Option α)
    (h : ∀ j, j < n → (f j).isSome = true) :
    ∀ k, k < n → getv ((List.range n).filterMap f) k = f k := by
  induction n generalizing f with
  | zero => intro k hk; omega
  | succ n ih =>
    intro k hk
    rcases h0 : f 0 with _ | a
    · exact absurd (h0 ▸ h 0 (by omega)) (by simp)
    · have e : (List.range (n + 1)).filterMap f
          = a :: (List.range n).filterMap (fun j => f (j + 1)) := by
        rw [List.range_succ_eq_map, List.filterMap_cons, h0, List.filterMap_map]
        rfl
      rw [e]
      match k with
      | 0 =>
        show some a = f 0
        rw [h0]
      | k + 1 =>
        show getv ((List.range n).filterMap (fun j => f (j + 1))) k = f (k + 1)
        exact ih (fun j => f (j + 1)) (fun j hj => h (j + 1) (by omega)) k (by omega)

lemma getv_elems (v : Vector α) (hlive : ∀ j, j < v.size → (slot v.data j).isSome = true)
    (j : Nat) (hj : j < v.size) : getv (elems v) j = slot v.data j :=
  getv_filterMap_range v.size (slot v.data) hlive j hj

lemma Reserve_size (v : Vector α) (c : Nat) : (Reserve v c).size = v.size := by
  unfold Reserve
  split <;> rfl

lemma Reserve_capacity (v : Vector α) (c : Nat) :
    Capacity (Reserve v c) = max (Capacity v) c := by
  unfold Reserve
  split
  · next h => omega
  · next h =>
    show (transferN v.data v.size 0 0 (List.replicate c none)).length = _
    rw [length_transferN, List.length_replicate]
    have e : Capacity v = v.data.length := rfl
    omega

lemma PopBack_capacity (v : Vector α) : Capacity (PopBack v) = Capacity v := by
  unfold PopBack
  split
  · rfl
  · show (v.data.set v.size none).length = _
    rw [List.length_set]
    rfl

lemma EmplaceBack_capacity_mono (v : Vector α) (x : α) :
    Capacity v ≤ Capacity (EmplaceBack v x) := by
  unfold EmplaceBack
  split
  · show v.data.length ≤ (v.data.set v.size (some x)).length
    rw [List.length_set]
  · next h =>
    show v.data.length ≤ (transferN v.data v.size 0 0 _).length
    rw [length_transferN, List.length_set, List.length_replicate]
    have e : Capacity v = v.data.length := rfl
    split <;> omega

lemma EmplaceBack_wf (v : Vector α) (x : α) (hv : v.size ≤ Capacity v) :
    (EmplaceBack v x).size ≤ Capacity (EmplaceBack v x) := by
  unfold EmplaceBack
  have e : Capacity v = v.data.length := rfl
  split
  · next h =>
    show v.size + 1 ≤ (v.data.set v.size (some x)).length
    rw [List.length_set]
    omega
  · next h =>
    show v.size + 1 ≤ (transferN v.data v.size 0 0 _).length
    rw [length_transferN, List.length_set, List.length_replicate]
    split <;> omega

/-! Claim theorems. -/

/-- C1 (evidence of the defect): the claim says `popBack()` destroys exactly
the last live element, the one at index `size-1`.  On the one-element vector
`[5]` (size 1, capacity 1) the code's
`std::destroy_at(data_.GetAddress() + size_--)` hands the *post*-decrement
expression's value — the old `size_ = 1` — to the pointer arithmetic, so the
destructor is run on offset 1, the one-past-the-last uninitialized slot, not
on index 0; the live element at index 0 survives (and is leaked), while
`size` does drop to 0 and the capacity stays 1. -/
theorem popBack_destroys_wrong_slot :
    PopBackDestroyOffset (⟨[some 5], 1⟩ : Vector Nat) = some 1
  ∧ PopBackDestroyOffset (⟨[some 5], 1⟩ : Vector Nat) ≠ some 0
  ∧ slot (PopBack (⟨[some 5], 1⟩ : Vector Nat)).data 0 = some 5
  ∧ (PopBack (⟨[some 5], 1⟩ : Vector Nat)).size = 0
  ∧ Capacity (PopBack (⟨[some 5], 1⟩ : Vector Nat)) = 1 := by
  decide

/-- C2: when `size == capacity` and the new element's constructor throws
during `EmplaceBack`, the vector observed by the caller after the exception
propagates is exactly the pre-call vector (same size, capacity and element
values): the element is constructed into the fresh buffer before anything of
the old state is touched, and the fresh buffer is discarded on unwind. -/
theorem emplaceBack_ctor_throw_strong (bad : α → Bool) (v : Vector α)
    (hfull : v.size = Capacity v) :
    EmplaceBackThrow bad none v = Except.error v := by
  unfold EmplaceBackThrow
  rw [if_neg (by omega)]

/-- Witness for C2 at a concrete full vector. -/
theorem emplaceBack_ctor_throw_strong_witness :
    (⟨[some 3], 1⟩ : Vector Nat).size = Capacity (⟨[some 3], 1⟩ : Vector Nat)
  ∧ EmplaceBackThrow (fun _ => false) none (⟨[some 3], 1⟩ : Vector Nat)
      = Except.error ⟨[some 3], 1⟩ :=
  ⟨by decide, emplaceBack_ctor_throw_strong (fun _ => false) ⟨[some 3], 1⟩ (by decide)⟩

/-- C3 (evidence of the defect): in the same-capacity insert path on
`[10, 20]` with capacity 3 (insert before end; the backward shift throws
after the trailing slot at offset 2 was move-constructed), the catch clause
leaves that trailing slot holding a live element — no destructor is run — and
instead requests `operator delete` of the interior address `buffer_ + 2`;
only the re-raise agrees with the claim. -/
theorem emplace_catch_frees_instead_of_destroying :
    (EmplaceShiftThrowOutcome (⟨[some 10, some 20, none], 2⟩ : Vector Nat)).data
        = [some 10, some 20, some 20]
  ∧ (slot (EmplaceShiftThrowOutcome (⟨[some 10, some 20, none], 2⟩ : Vector Nat)).data 2).isSome
        = true
  ∧ (EmplaceShiftThrowOutcome (⟨[some 10, some 20, none], 2⟩ : Vector Nat)).rawFreeOffset
        = some 2
  ∧ (EmplaceShiftThrowOutcome (⟨[some 10, some 20, none], 2⟩ : Vector Nat)).rethrown = true := by
  decide

/-- C4: from a full vector (`size == capacity == c`), a successful
`EmplaceBack`, `PushBack`, `Emplace` or `Insert` leaves the capacity at
`max 1 (2*c)`: capacity 0 grows to 1, capacity `c > 0` to `2*c`. -/
theorem growth_capacity_doubles (v : Vector α) (x : α) (i : Nat)
    (hfull : v.size = Capacity v) (hi : i ≤ v.size) :
    Capacity (EmplaceBack v x) = max 1 (2 * Capacity v)
  ∧ Capacity (PushBack v x) = max 1 (2 * Capacity v)
  ∧ Capacity (Emplace v i x) = max 1 (2 * Capacity v)
  ∧ Capacity (Insert v i x) = max 1 (2 * Capacity v) := by
  have e : Capacity v = v.data.length := rfl
  have hb : Capacity (EmplaceBack v x) = max 1 (2 * Capacity v) := by
    unfold EmplaceBack
    rw [if_neg (by omega)]
    show (transferN v.data v.size 0 0 _).length = _
    rw [length_transferN, List.length_set, List.length_replicate]
    split <;> omega
  have hm : Capacity (Emplace v i x) = max 1 (2 * Capacity v) := by
    unfold Emplace
    rw [if_neg (by omega)]
    show (transferN v.data (v.size - i) i (i + 1) (transferN v.data i 0 0 _)).length = _
    rw [length_transferN, length_transferN, List.length_set, List.length_replicate]
    split <;> omega
  exact ⟨hb, hb, hm, hm⟩

/-- Witness for C4 at a concrete full vector of capacity 1. -/
theorem growth_capacity_doubles_witness :
    (⟨[some 7], 1⟩ : Vector Nat).size = Capacity (⟨[some 7], 1⟩ : Vector Nat)
  ∧ Capacity (EmplaceBack (⟨[some 7], 1⟩ : Vector Nat) 8)
      = max 1 (2 * Capacity (⟨[some 7], 1⟩ : Vector Nat)) :=
  ⟨by decide, (growth_capacity_doubles ⟨[some 7], 1⟩ 8 0 (by decide) (by decide)).1⟩

/-- C5: `Reserve(newCapacity)` is a no-op when `newCapacity <= capacity`;
otherwise it sets the capacity to exactly `newCapacity` and leaves `size` and
the element sequence unchanged. -/
theorem reserve_spec (v : Vector α) (c : Nat) (hv : v.size ≤ Capacity v) :
    (c ≤ Capacity v → Reserve v c = v)
  ∧ (Capacity v < c →
      Capacity (Reserve v c) = c ∧ (Reserve v c).size = v.size
        ∧ elems (Reserve v c) = elems v) := by
  have e : Capacity v = v.data.length := rfl
  constructor
  · intro h
    unfold Reserve
    rw [if_pos h]
  · intro h
    unfold Reserve
    rw [if_neg (by omega)]
    refine ⟨?_, rfl, ?_⟩
    · show (transferN v.data v.size 0 0 (List.replicate c none)).length = c
      rw [length_transferN, List.length_replicate]
    · apply elems_congr
      · rfl
      · intro j hj
        show slot (transferN v.data v.size 0 0 (List.replicate c none)) j = slot v.data j
        rw [slot_transferN _ _ _ _ _ _ (by rw [List.length_replicate]; omega),
          if_pos (by omega)]
        congr 1
        omega

/-- Witness for C5 at a concrete vector, growing capacity 1 to 3. -/
theorem reserve_spec_witness :
    (⟨[some 1], 1⟩ : Vector Nat).size ≤ Capacity (⟨[some 1], 1⟩ : Vector Nat)
  ∧ Capacity (Reserve (⟨[some 1], 1⟩ : Vector Nat) 3) = 3
  ∧ elems (Reserve (⟨[some 1], 1⟩ : Vector Nat) 3) = elems (⟨[some 1], 1⟩ : Vector Nat) :=
  ⟨by decide, ((reserve_spec ⟨[some 1], 1⟩ 3 (by decide)).2 (by decide)).1,
    ((reserve_spec ⟨[some 1], 1⟩ 3 (by decide)).2 (by decide)).2.2⟩

/-- C9: move construction hands the entire buffer — hence the element
sequence and the capacity — to the new vector, and leaves the moved-from
source with size 0, capacity 0 and no live elements; the embedding of the
constructor body is a pure pointer/size swap that reads or writes no
element. -/
theorem moveCtor_transfers_and_empties_source (v : Vector α) :
    (MoveCtor v).1 = v
  ∧ elems (MoveCtor v).1 = elems v
  ∧ Capacity (MoveCtor v).1 = Capacity v
  ∧ (MoveCtor v).2.size = 0
  ∧ Capacity (MoveCtor v).2 = 0
  ∧ elems (MoveCtor v).2 = [] :=
  ⟨rfl, rfl, rfl, rfl, rfl, rfl⟩

/-- C10: self-assignment (the `this == &rhs` guard of both assignment
operators taking the early exit) leaves size, capacity and the element
sequence unchanged. -/
theorem self_assignment_noop (v : Vector α) :
    AssignCopy true v v = v
  ∧ AssignMove true v v = (v, v)
  ∧ (AssignCopy true v v).size = v.size
  ∧ Capacity (AssignCopy true v v) = Capacity v
  ∧ elems (AssignCopy true v v) = elems v :=
  ⟨rfl, rfl, rfl, rfl, rfl⟩

/-- C7: inserting a value at any valid index `i` (`0 ≤ i ≤ size`, end
included) and immediately erasing at index `i` restores the original element
sequence and size. -/
theorem insert_then_erase_roundtrip (v : Vector α) (i : Nat) (x : α) (hi : i ≤ v.size) :
    (Erase (Insert v i x) i).size = v.size
  ∧ elems (Erase (Insert v i x) i) = elems v := by
  simp only [Insert]
  have hsz : (Emplace v i x).size = v.size + 1 := Emplace_size v i x
  have hcap : (Emplace v i x).size ≤ Capacity (Emplace v i x) := by
    rw [hsz]
    exact Emplace_capacity_ge v i x
  have hk : i < (Emplace v i x).size := by omega
  have hes : (Erase (Emplace v i x) i).size = v.size := by
    rw [Erase_size _ _ hk, hsz]
    omega
  refine ⟨hes, ?_⟩
  apply elems_congr _ _ hes
  intro j hj
  rw [slot_Erase _ _ hk hcap j (by omega)]
  by_cases hji : j < i
  · rw [if_pos hji, slot_Emplace v i x hi j (by omega), if_pos hji]
  · rw [if_neg hji, slot_Emplace v i x hi (j + 1) (by omega), if_neg (by omega),
      if_neg (by omega), Nat.add_sub_cancel]

/-- Witness for C7: insert 9 at index 1 of the full vector `[1, 2]` (growth
path), then erase at index 1. -/
theorem insert_then_erase_roundtrip_witness :
    (1 : Nat) ≤ (⟨[some 1, some 2], 2⟩ : Vector Nat).size
  ∧ elems (Erase (Insert (⟨[some 1, some 2], 2⟩ : Vector Nat) 1 9) 1)
      = elems (⟨[some 1, some 2], 2⟩ : Vector Nat) :=
  ⟨by decide, (insert_then_erase_roundtrip ⟨[some 1, some 2], 2⟩ 1 9 (by decide)).2⟩

/-- C6: copy assignment between distinct vectors when the source's size
exceeds the destination's capacity takes the copy-and-swap branch: if any
element copy throws while the temporary is built, the caller observes the
destination exactly as before the call; on success the destination is a fresh
buffer of capacity `rhs.size_` holding a copy of the source's sequence. -/
theorem assignCopy_grow_strong_guarantee (bad : α → Bool) (dst rhs : Vector α)
    (hgrow : Capacity dst < rhs.size)
    (hlive : ∀ j, j < rhs.size → (slot rhs.data j).isSome = true) :
    ((∃ a ∈ elems rhs, bad a = true) →
      AssignCopyThrow bad false dst rhs = Except.error dst)
  ∧ ((∀ a ∈ elems rhs, bad a = false) →
      ∃ w, AssignCopyThrow bad false dst rhs = Except.ok w
        ∧ w.size = rhs.size ∧ Capacity w = rhs.size ∧ elems w = elems rhs) := by
  have hlen : (elems rhs).length = rhs.size := elems_length rhs hlive
  constructor
  · intro hbad
    unfold AssignCopyThrow
    rw [if_neg (by simp), if_pos hgrow,
      (uninitCopyN_isNone_iff bad (elems rhs) 0 (List.replicate rhs.size none)).mpr hbad]
  · intro hgood
    unfold AssignCopyThrow
    rw [if_neg (by simp), if_pos hgrow]
    rcases hu : uninitCopyN bad (elems rhs) 0 (List.replicate rhs.size none) with _ | nd
    · exfalso
      rcases (uninitCopyN_isNone_iff bad (elems rhs) 0 (List.replicate rhs.size none)).mp hu
        with ⟨a, ha, hba⟩
      rw [hgood a ha] at hba
      cases hba
    · refine ⟨⟨nd, rhs.size⟩, rfl, rfl, ?_, ?_⟩
      · show nd.length = rhs.size
        rw [uninitCopyN_length bad _ _ _ _ hu, List.length_replicate]
      · apply elems_congr
        · rfl
        · intro j hj
          show slot nd j = slot rhs.data j
          rw [uninitCopyN_slot bad _ _ _ _ hu
              (by rw [List.length_replicate]; omega) j,
            if_pos (by omega), Nat.sub_zero]
          exact getv_elems rhs hlive j hj

/-- Witness for C6: copying `[1, 2]` into an empty destination where copying
the value 2 throws; the destination is returned untouched. -/
theorem assignCopy_grow_strong_witness :
    Capacity (⟨[], 0⟩ : Vector Nat) < (⟨[some 1, some 2], 2⟩ : Vector Nat).size
  ∧ AssignCopyThrow (fun a => a == 2) false (⟨[], 0⟩ : Vector Nat) ⟨[some 1, some 2], 2⟩
      = Except.error ⟨[], 0⟩ :=
  ⟨by decide,
    (assignCopy_grow_strong_guarantee (fun a => a == 2) ⟨[], 0⟩ ⟨[some 1, some 2], 2⟩
      (by decide) (by decide)).1 (by decide)⟩

/-- C8 counterexample: move assignment is an operation of the container that
changes the destination's capacity and *decreases* it — here from 2 (after
`Reserve 2` on an empty vector) to 0 — refuting "after any operation that
changes capacity, the capacity has not decreased" as stated. -/
theorem assignMove_capacity_decreases :
    Capacity ((AssignMove false (Reserve (EmptyVec Nat) 2) (EmptyVec Nat)).1)
      < Capacity (Reserve (EmptyVec Nat) 2) := by
  decide

/-- C8 (amended): every operation preserves `0 ≤ size ≤ capacity`; the
growth operations (`Reserve`, `Resize`, `EmplaceBack`/`PushBack`, `Emplace`)
never decrease capacity and `PopBack`/`Erase` leave it unchanged, while the
storage-swapping operations (move construction, move assignment, `Swap`) may
hand one operand a smaller buffer but still preserve the invariant for both
operands. -/
theorem size_le_capacity_preserved (v w : Vector α) (x dflt : α) (b : Bool) (i j n : Nat)
    (hv : v.size ≤ Capacity v) (hw : w.size ≤ Capacity w)
    (hi : i ≤ v.size) (hj : j < v.size) :
    (EmptyVec α).size ≤ Capacity (EmptyVec α)
  ∧ (MkSized dflt n).size ≤ Capacity (MkSized dflt n)
  ∧ (CopyCtor v).size ≤ Capacity (CopyCtor v)
  ∧ (MoveCtor v).1.size ≤ Capacity (MoveCtor v).1
  ∧ (MoveCtor v).2.size ≤ Capacity (MoveCtor v).2
  ∧ (AssignCopy b v w).size ≤ Capacity (AssignCopy b v w)
  ∧ (AssignMove b v w).1.size ≤ Capacity (AssignMove b v w).1
  ∧ (AssignMove b v w).2.size ≤ Capacity (AssignMove b v w).2
  ∧ (Swap v w).1.size ≤ Capacity (Swap v w).1
  ∧ (Swap v w).2.size ≤ Capacity (Swap v w).2
  ∧ ((PopBack v).size ≤ Capacity (PopBack v) ∧ Capacity (PopBack v) = Capacity v)
  ∧ ((Emplace v i x).size ≤ Capacity (Emplace v i x)
      ∧ Capacity v ≤ Capacity (Emplace v i x))
  ∧ ((Erase v j).size ≤ Capacity (Erase v j) ∧ Capacity (Erase v j) = Capacity v)
  ∧ ((EmplaceBack v x).size ≤ Capacity (EmplaceBack v x)
      ∧ Capacity v ≤ Capacity (EmplaceBack v x))
  ∧ (PushBack v x).size ≤ Capacity (PushBack v x)
  ∧ ((Resize v dflt n).size ≤ Capacity (Resize v dflt n)
      ∧ Capacity v ≤ Capacity (Resize v dflt n))
  ∧ ((Reserve v n).size ≤ Capacity (Reserve v n)
      ∧ Capacity v ≤ Capacity (Reserve v n)) := by
  have ev : Capacity v = v.data.length := rfl
  have ew : Capacity w = w.data.length := rfl
  refine ⟨Nat.le_refl 0, ?_, ?_, hv, Nat.le_refl 0, ?_, ?_, ?_, ?_, ?_, ?_, ?_, ?_,
    ?_, ?_, ?_, ?_⟩
  · show n ≤ (List.replicate n (some dflt)).length
    rw [List.length_replicate]
  · show v.size ≤ (transferN v.data v.size 0 0 (List.replicate v.size none)).length
    rw [length_transferN, List.length_replicate]
  · unfold AssignCopy
    split
    · exact hv
    · split
      · show w.size ≤ (transferN w.data w.size 0 0 (List.replicate w.size none)).length
        rw [length_transferN, List.length_replicate]
      · split
        · next h2 h3 =>
          show w.size ≤ (fillN none (v.size - w.size) w.size
            (transferN w.data w.size 0 0 v.data)).length
          rw [length_fillN, length_transferN]
          omega
        · next h2 h3 =>
          show w.size ≤ (transferN w.data w.size 0 0 v.data).length
          rw [length_transferN]
          omega
  · unfold AssignMove
    split
    · exact hv
    · exact hw
  · unfold AssignMove
    split
    · exact hw
    · exact hv
  · exact hw
  · exact hv
  · constructor
    · unfold PopBack
      split
      · exact hv
      · show v.size - 1 ≤ (v.data.set v.size none).length
        rw [List.length_set]
        omega
    · exact PopBack_capacity v
  · exact ⟨by rw [Emplace_size]; exact Emplace_capacity_ge v i x,
      Emplace_capacity_mono v i x⟩
  · refine ⟨?_, by rw [Erase_capacity]⟩
    rw [Erase_size v j hj, Erase_capacity]
    omega
  · exact ⟨EmplaceBack_wf v x hv, EmplaceBack_capacity_mono v x⟩
  · exact EmplaceBack_wf v x hv
  · unfold Resize
    split
    · exact ⟨hv, Nat.le_refl _⟩
    · split
      · next h1 h2 =>
        constructor
        · show n ≤ (fillN none (v.size - n) n v.data).length
          rw [length_fillN]
          omega
        · show v.data.length ≤ (fillN none (v.size - n) n v.data).length
          rw [length_fillN]
      · next h1 h2 =>
        have hrc : Capacity (Reserve v n) = max (Capacity v) n := Reserve_capacity v n
        constructor
        · show n ≤ (fillN (some dflt) (n - v.size) v.size (Reserve v n).data).length
          rw [length_fillN]
          have : (Reserve v n).data.length = Capacity (Reserve v n) := rfl
          omega
        · show v.data.length ≤ (fillN (some dflt) (n - v.size) v.size (Reserve v n).data).length
          rw [length_fillN]
          have : (Reserve v n).data.length = Capacity (Reserve v n) := rfl
          omega
  · refine ⟨?_, ?_⟩
    · rw [Reserve_size, Reserve_capacity]
      omega
    · rw [Reserve_capacity]
      omega

/-- Witness for C8 at concrete vectors, exercising the `PopBack` conjunct. -/
theorem size_le_capacity_preserved_witness :
    ((PopBack (⟨[some 4], 1⟩ : Vector Nat)).size
        ≤ Capacity (PopBack (⟨[some 4], 1⟩ : Vector Nat))
      ∧ Capacity (PopBack (⟨[some 4], 1⟩ : Vector Nat))
        = Capacity (⟨[some 4], 1⟩ : Vector Nat)) :=
  (size_le_capacity_preserved (⟨[some 4], 1⟩ : Vector Nat) ⟨[], 0⟩ 0 0 true 0 0 0
      (by decide) (by decide) (by decide) (by decide)).2.2.2.2.2.2.2.2.2.2.1

end AdvVec
